import Mathlib

/-!
A verification development for the demixing core of
`src/src/energyflow/archs/archbase.py` (EnergyFlowDemix).

The real-valued computations (`K.softmax`, `to_vertices`, `perimeterLoss`,
`DeMixer.call`) are embedded over `ℝ`, with a Keras matrix of shape `(m, n)`
modelled as `Matrix (Fin m) (Fin n) ℝ` and the batch dimension modelled per
example.  The configuration logic of `NNBase._process_hps` / `fit` / `predict`
and the Python attribute-lookup behaviour of the `model` / `demixer`
accessors are embedded as executable functions.
-/

namespace EnergyFlowDemix

open Finset

/-! ### The demixing core (archbase.py, lines 215-272) -/

/-- `K.softmax(m, axis=1)`: row-wise softmax.  Entry `(i, j)` is
`exp (m i j)` divided by the sum of `exp` over row `i`. -/
noncomputable def K_softmax {D C : ℕ} (m : Matrix (Fin D) (Fin C) ℝ) :
    Matrix (Fin D) (Fin C) ℝ :=
  fun i j => Real.exp (m i j) / ∑ k, Real.exp (m i k)

/-- `to_vertices` (archbase.py lines 254-261): row-softmax of the raw
parameter matrix, transposed, then each row divided by its sum. -/
noncomputable def to_vertices {D C : ℕ} (raw_fractions : Matrix (Fin D) (Fin C) ℝ) :
    Matrix (Fin C) (Fin D) ℝ :=
  let fractions := K_softmax raw_fractions
  let raw_vertices := Matrix.transpose fractions
  fun c d => raw_vertices c d / ∑ e, raw_vertices c e

/-- `perimeterLoss` (archbase.py lines 263-272): `0.5` times the sum over all
ordered pairs `(i, j)` of vertex rows of
`sqrt (squared Euclidean distance + 1e-9)`. -/
noncomputable def perimeterLoss {D C : ℕ} (raw_fractions : Matrix (Fin D) (Fin C) ℝ) : ℝ :=
  let vertices := to_vertices raw_fractions
  let pws_squares : Fin C → Fin C → ℝ := fun i j => ∑ d, (vertices j d - vertices i d) ^ 2
  let pws_distances : Fin C → Fin C → ℝ := fun i j => Real.sqrt (pws_squares i j + 1e-9)
  0.5 * ∑ i, ∑ j, pws_distances i j

/-- The `DeMixer` layer (archbase.py lines 215-252): coefficient `alpha`, the
wrapped inner model `architecture` (a map from an input to a vector of
`number_cat` category scores), and the trainable matrix `raw_fractions` of
shape `(output_dim, number_cat)`. -/
structure DeMixer (Input : Type) (output_dim number_cat : ℕ) where
  alpha : ℝ
  architecture : Input → Fin number_cat → ℝ
  raw_fractions : Matrix (Fin output_dim) (Fin number_cat) ℝ

/-- `K.eye n`: the `n × n` identity matrix used by the initializer. -/
def K_eye (n : ℕ) : Matrix (Fin n) (Fin n) ℝ :=
  fun i j => if i = j then 1 else 0

/-- `DeMixer.__init__` (archbase.py lines 216-232): `raw_fractions` is
initialized to `K.eye(output_dim)[:, :number_cat]`, the first `number_cat`
columns of the identity matrix (the slice exists when
`number_cat ≤ output_dim`). -/
def DeMixer.init (Input : Type) (output_dim number_cat : ℕ)
    (h : number_cat ≤ output_dim) (alpha : ℝ)
    (architecture : Input → Fin number_cat → ℝ) :
    DeMixer Input output_dim number_cat :=
  { alpha := alpha
    architecture := architecture
    raw_fractions := fun i j => K_eye output_dim i (Fin.castLE h j) }

/-- `DeMixer.call` (archbase.py lines 240-252) on a single example: the inner
model produces the barycentric (category-probability) vector, the loss
`alpha * perimeterLoss raw_fractions` is registered via `add_loss`, and the
output is the matrix product `K.dot(barycentric, vertices)`.  The result is
the pair (output row, registered loss term). -/
noncomputable def DeMixer.call {Input : Type} {D C : ℕ}
    (self : DeMixer Input D C) (inputs : Input) : (Fin D → ℝ) × ℝ :=
  let barycentric := self.architecture inputs
  let registered_loss := self.alpha * perimeterLoss self.raw_fractions
  let vertices := to_vertices self.raw_fractions
  let outputs := fun d => ∑ c, barycentric c * vertices c d
  (outputs, registered_loss)

/-! ### Basic positivity and normalization lemmas -/

lemma sum_exp_pos {D C : ℕ} [Nonempty (Fin C)] (m : Matrix (Fin D) (Fin C) ℝ)
    (i : Fin D) : 0 < ∑ k, Real.exp (m i k) :=
  Finset.sum_pos (fun k _ => Real.exp_pos (m i k)) Finset.univ_nonempty

lemma K_softmax_pos {D C : ℕ} (m : Matrix (Fin D) (Fin C) ℝ)
    (i : Fin D) (j : Fin C) : 0 < K_softmax m i j := by
  have : Nonempty (Fin C) := ⟨j⟩
  exact div_pos (Real.exp_pos _) (sum_exp_pos m i)

lemma K_softmax_row_sum {D C : ℕ} [Nonempty (Fin C)]
    (m : Matrix (Fin D) (Fin C) ℝ) (i : Fin D) :
    ∑ j, K_softmax m i j = 1 := by
  unfold K_softmax
  rw [← Finset.sum_div]
  exact div_self (ne_of_gt (sum_exp_pos m i))

lemma to_vertices_pos {D C : ℕ} (raw : Matrix (Fin D) (Fin C) ℝ)
    (c : Fin C) (d : Fin D) : 0 < to_vertices raw c d := by
  have : Nonempty (Fin D) := ⟨d⟩
  exact div_pos (K_softmax_pos raw d c)
    (Finset.sum_pos (fun e _ => K_softmax_pos raw e c) Finset.univ_nonempty)

lemma to_vertices_nonneg {D C : ℕ} (raw : Matrix (Fin D) (Fin C) ℝ)
    (c : Fin C) (d : Fin D) : 0 ≤ to_vertices raw c d :=
  le_of_lt (to_vertices_pos raw c d)

lemma to_vertices_row_sum {D C : ℕ} (hD : 0 < D)
    (raw : Matrix (Fin D) (Fin C) ℝ) (c : Fin C) :
    ∑ d, to_vertices raw c d = 1 := by
  have : Nonempty (Fin D) := Fin.pos_iff_nonempty.mp hD
  unfold to_vertices
  rw [← Finset.sum_div]
  exact div_self (ne_of_gt
    (Finset.sum_pos (fun e _ => K_softmax_pos raw e c) Finset.univ_nonempty))

/-- Claim C2: for every raw parameter matrix of shape
`(output_dim, number_cat)` with `output_dim ≥ 1`, every row of the vertex
matrix returned by `to_vertices` has non-negative entries and sums to `1`. -/
theorem to_vertices_rows_in_simplex {D C : ℕ} (hD : 0 < D)
    (raw : Matrix (Fin D) (Fin C) ℝ) (c : Fin C) :
    (∀ d, 0 ≤ to_vertices raw c d) ∧ ∑ d, to_vertices raw c d = 1 :=
  ⟨fun d => to_vertices_nonneg raw c d, to_vertices_row_sum hD raw c⟩

/-- Witness for C2 at `output_dim = number_cat = 1` and the zero raw matrix. -/
theorem to_vertices_rows_in_simplex_witness :
    0 < 1 ∧ ((∀ d, 0 ≤ to_vertices (0 : Matrix (Fin 1) (Fin 1) ℝ) 0 d) ∧
      ∑ d, to_vertices (0 : Matrix (Fin 1) (Fin 1) ℝ) 0 d = 1) :=
  ⟨Nat.one_pos, to_vertices_rows_in_simplex Nat.one_pos 0 0⟩

lemma DeMixer.call_fst {Input : Type} {D C : ℕ} (dm : DeMixer Input D C)
    (x : Input) (d : Fin D) :
    (dm.call x).1 d = ∑ c, dm.architecture x c * to_vertices dm.raw_fractions c d :=
  rfl

/-- Claim C1: when the inner model's output at `x` is a probability
distribution over the `number_cat` categories, the output row produced by
`DeMixer.call` (the product of that row with the vertex matrix) has
non-negative entries that sum to `1`, provided `output_dim ≥ 1`. -/
theorem demixer_call_preserves_simplex {Input : Type} {D C : ℕ} (hD : 0 < D)
    (dm : DeMixer Input D C) (x : Input)
    (hnn : ∀ c, 0 ≤ dm.architecture x c)
    (hsum : ∑ c, dm.architecture x c = 1) :
    (∀ d, 0 ≤ (dm.call x).1 d) ∧ ∑ d, (dm.call x).1 d = 1 := by
  constructor
  · intro d
    rw [DeMixer.call_fst]
    exact Finset.sum_nonneg fun c _ =>
      mul_nonneg (hnn c) (to_vertices_nonneg dm.raw_fractions c d)
  · calc ∑ d, (dm.call x).1 d
        = ∑ d, ∑ c, dm.architecture x c * to_vertices dm.raw_fractions c d :=
          Finset.sum_congr rfl fun d _ => DeMixer.call_fst dm x d
      _ = ∑ c, dm.architecture x c * ∑ d, to_vertices dm.raw_fractions c d := by
          rw [Finset.sum_comm]
          exact Finset.sum_congr rfl fun c _ => (Finset.mul_sum _ _ _).symm
      _ = ∑ c, dm.architecture x c := Finset.sum_congr rfl fun c _ => by
          rw [to_vertices_row_sum hD dm.raw_fractions c, mul_one]
      _ = 1 := hsum

/-- Witness for C1: a one-category, one-dimensional demixer whose inner model
outputs the constant distribution `(1)`. -/
theorem demixer_call_preserves_simplex_witness :
    0 < 1 ∧ ((∀ d, 0 ≤ ((DeMixer.mk 0 (fun _ _ => 1) 0 : DeMixer Unit 1 1).call ()).1 d) ∧
      ∑ d, ((DeMixer.mk 0 (fun _ _ => 1) 0 : DeMixer Unit 1 1).call ()).1 d = 1) :=
  ⟨Nat.one_pos, demixer_call_preserves_simplex Nat.one_pos _ ()
    (fun _ => zero_le_one) (by simp)⟩

/-- Claim C4: the loss term registered by `DeMixer.call` equals
`alpha * perimeterLoss raw_fractions` and does not depend on the input batch:
it is the same for any two inputs presented to the same `DeMixer` state. -/
theorem demixer_registered_loss_input_independent {Input : Type} {D C : ℕ}
    (dm : DeMixer Input D C) (x y : Input) :
    (dm.call x).2 = dm.alpha * perimeterLoss dm.raw_fractions ∧
      (dm.call x).2 = (dm.call y).2 :=
  ⟨rfl, rfl⟩

/-- Claim C8: at `DeMixer` construction the raw parameter matrix of shape
`(output_dim, number_cat)` is initialized to the first `number_cat` columns
of the `output_dim × output_dim` identity matrix. -/
theorem demixer_init_identity_columns {Input : Type} {D C : ℕ} (h : C ≤ D)
    (alpha : ℝ) (architecture : Input → Fin C → ℝ) (i : Fin D) (j : Fin C) :
    (DeMixer.init Input D C h alpha architecture).raw_fractions i j
      = (1 : Matrix (Fin D) (Fin D) ℝ) i (Fin.castLE h j) := by
  rw [Matrix.one_apply]
  rfl

/-- Witness for C8 at `output_dim = 2`, `number_cat = 1`, entry `(0, 0)`. -/
theorem demixer_init_identity_columns_witness :
    1 ≤ 2 ∧ (DeMixer.init Unit 2 1 one_le_two 0 (fun _ _ => 0)).raw_fractions 0 0
      = (1 : Matrix (Fin 2) (Fin 2) ℝ) 0 (Fin.castLE one_le_two 0) :=
  ⟨one_le_two, demixer_init_identity_columns one_le_two 0 _ 0 0⟩

/-! ### Decomposition of `perimeterLoss` over ordered pairs (C3) -/

lemma sum_pairs_split {C : ℕ} (f : Fin C → Fin C → ℝ) (hsymm : ∀ i j, f i j = f j i) :
    ∑ i, ∑ j, f i j
      = 2 * (∑ p ∈ Finset.univ.filter (fun p : Fin C × Fin C => p.1 < p.2), f p.1 p.2)
        + ∑ i, f i i := by
  have hprod : ∑ i, ∑ j, f i j = ∑ p : Fin C × Fin C, f p.1 p.2 := by
    rw [← Finset.univ_product_univ, Finset.sum_product]
  have hswap :
      ∑ p ∈ Finset.univ.filter (fun p : Fin C × Fin C => p.2 < p.1), f p.1 p.2
        = ∑ p ∈ Finset.univ.filter (fun p : Fin C × Fin C => p.1 < p.2), f p.1 p.2 := by
    refine Finset.sum_equiv (Equiv.prodComm (Fin C) (Fin C)) (fun p => ?_) (fun p _ => ?_)
    · simp [Equiv.prodComm]
    · exact hsymm p.1 p.2
  have hdiag :
      ∑ p ∈ Finset.univ.filter (fun p : Fin C × Fin C => p.1 = p.2), f p.1 p.2
        = ∑ i, f i i := by
    rw [Finset.sum_filter, ← Finset.univ_product_univ, Finset.sum_product]
    exact Finset.sum_congr rfl fun i _ => by rw [Finset.sum_ite_eq]; simp
  have hfilter1 :
      Finset.univ.filter (fun p : Fin C × Fin C => ¬ p.1 < p.2 ∧ p.2 < p.1)
        = Finset.univ.filter (fun p : Fin C × Fin C => p.2 < p.1) :=
    Finset.filter_congr fun p _ => ⟨fun h => h.2, fun h => ⟨asymm h, h⟩⟩
  have hfilter2 :
      Finset.univ.filter (fun p : Fin C × Fin C => ¬ p.1 < p.2 ∧ ¬ p.2 < p.1)
        = Finset.univ.filter (fun p : Fin C × Fin C => p.1 = p.2) :=
    Finset.filter_congr fun p _ =>
      ⟨fun h => le_antisymm (not_lt.mp h.2) (not_lt.mp h.1),
       fun h => by rw [h]; exact ⟨lt_irrefl _, lt_irrefl _⟩⟩
  have hnotlt :
      ∑ p ∈ Finset.univ.filter (fun p : Fin C × Fin C => ¬ p.1 < p.2), f p.1 p.2
        = (∑ p ∈ Finset.univ.filter (fun p : Fin C × Fin C => p.2 < p.1), f p.1 p.2)
          + ∑ p ∈ Finset.univ.filter (fun p : Fin C × Fin C => p.1 = p.2), f p.1 p.2 := by
    rw [← Finset.sum_filter_add_sum_filter_not
      (Finset.univ.filter (fun p : Fin C × Fin C => ¬ p.1 < p.2))
      (fun p => p.2 < p.1) (fun p => f p.1 p.2),
      Finset.filter_filter, Finset.filter_filter, hfilter1, hfilter2]
  have hmain := Finset.sum_filter_add_sum_filter_not (Finset.univ : Finset (Fin C × Fin C))
    (fun p => p.1 < p.2) (fun p => f p.1 p.2)
  rw [hprod, ← hmain, hnotlt, hswap, hdiag]
  ring

lemma perimeterLoss_eq {D C : ℕ} (raw : Matrix (Fin D) (Fin C) ℝ) :
    perimeterLoss raw = 0.5 * ∑ i, ∑ j,
      Real.sqrt ((∑ d, (to_vertices raw j d - to_vertices raw i d) ^ 2) + 1e-9) :=
  rfl

/-- Claim C3: `perimeterLoss` is `0.5` times the sum over all ordered pairs
`(i, j)` of vertex rows (including `i = j`) of
`sqrt (squared distance + 1e-9)`; equivalently, the sum over each unordered
pair counted once plus the constant diagonal offset
`number_cat * sqrt 1e-9 / 2`. -/
theorem perimeterLoss_pair_decomposition {D C : ℕ} (raw : Matrix (Fin D) (Fin C) ℝ) :
    perimeterLoss raw = 0.5 * ∑ i, ∑ j,
        Real.sqrt ((∑ d, (to_vertices raw j d - to_vertices raw i d) ^ 2) + 1e-9)
    ∧ perimeterLoss raw
      = (∑ p ∈ Finset.univ.filter (fun p : Fin C × Fin C => p.1 < p.2),
          Real.sqrt ((∑ d, (to_vertices raw p.2 d - to_vertices raw p.1 d) ^ 2) + 1e-9))
        + C * Real.sqrt 1e-9 / 2 := by
  constructor
  · exact perimeterLoss_eq raw
  · have hsq : ∀ i j : Fin C,
        (∑ d, (to_vertices raw j d - to_vertices raw i d) ^ 2)
          = ∑ d, (to_vertices raw i d - to_vertices raw j d) ^ 2 :=
      fun i j => Finset.sum_congr rfl fun d _ => by ring
    rw [perimeterLoss_eq raw, sum_pairs_split
      (fun i j => Real.sqrt ((∑ d, (to_vertices raw j d - to_vertices raw i d) ^ 2) + 1e-9))
      (fun i j => by
        show Real.sqrt ((∑ d, (to_vertices raw j d - to_vertices raw i d) ^ 2) + 1e-9)
          = Real.sqrt ((∑ d, (to_vertices raw i d - to_vertices raw j d) ^ 2) + 1e-9)
        rw [hsq i j])]
    have hdiag : ∀ i : Fin C,
        Real.sqrt ((∑ d, (to_vertices raw i d - to_vertices raw i d) ^ 2) + 1e-9)
          = Real.sqrt 1e-9 := fun i => by simp
    rw [Finset.sum_congr rfl fun i _ => hdiag i, Finset.sum_const, Finset.card_univ,
      Fintype.card_fin, nsmul_eq_mul]
    ring

/-! ### Permutation invariance of `perimeterLoss` (C7) -/

lemma K_softmax_perm {D C : ℕ} (raw : Matrix (Fin D) (Fin C) ℝ)
    (σ : Equiv.Perm (Fin C)) (i : Fin D) (j : Fin C) :
    K_softmax (fun a b => raw a (σ b)) i j = K_softmax raw i (σ j) := by
  unfold K_softmax
  rw [Equiv.sum_comp σ (fun k => Real.exp (raw i k))]

lemma to_vertices_apply {D C : ℕ} (raw : Matrix (Fin D) (Fin C) ℝ)
    (c : Fin C) (d : Fin D) :
    to_vertices raw c d = K_softmax raw d c / ∑ e, K_softmax raw e c :=
  rfl

lemma to_vertices_perm {D C : ℕ} (raw : Matrix (Fin D) (Fin C) ℝ)
    (σ : Equiv.Perm (Fin C)) (c : Fin C) (d : Fin D) :
    to_vertices (fun a b => raw a (σ b)) c d = to_vertices raw (σ c) d := by
  rw [to_vertices_apply, to_vertices_apply, K_softmax_perm raw σ d c]
  congr 1
  exact Finset.sum_congr rfl fun e _ => K_softmax_perm raw σ e c

lemma sum_sum_perm {C : ℕ} (σ : Equiv.Perm (Fin C)) (F : Fin C → Fin C → ℝ) :
    ∑ i, ∑ j, F (σ i) (σ j) = ∑ i, ∑ j, F i j := by
  calc ∑ i, ∑ j, F (σ i) (σ j)
      = ∑ i, ∑ j, F (σ i) j :=
        Finset.sum_congr rfl fun i _ => Equiv.sum_comp σ (fun b => F (σ i) b)
    _ = ∑ i, ∑ j, F i j := Equiv.sum_comp σ (fun a => ∑ j, F a j)

/-- Claim C7: `perimeterLoss` is invariant under any permutation of the
category indices: permuting the columns of the raw parameter matrix yields
exactly the same scalar. -/
theorem perimeterLoss_perm_invariant {D C : ℕ} (raw : Matrix (Fin D) (Fin C) ℝ)
    (σ : Equiv.Perm (Fin C)) :
    perimeterLoss (fun i j => raw i (σ j)) = perimeterLoss raw := by
  have h1 : ∀ i j : Fin C,
      Real.sqrt ((∑ d, (to_vertices (fun a b => raw a (σ b)) j d
          - to_vertices (fun a b => raw a (σ b)) i d) ^ 2) + 1e-9)
        = Real.sqrt ((∑ d, (to_vertices raw (σ j) d - to_vertices raw (σ i) d) ^ 2) + 1e-9) :=
    fun i j => by
      rw [show (∑ d, (to_vertices (fun a b => raw a (σ b)) j d
            - to_vertices (fun a b => raw a (σ b)) i d) ^ 2)
          = ∑ d, (to_vertices raw (σ j) d - to_vertices raw (σ i) d) ^ 2 from
        Finset.sum_congr rfl fun d _ => by
          rw [to_vertices_perm raw σ j d, to_vertices_perm raw σ i d]]
  have hS :
      (∑ i, ∑ j, Real.sqrt ((∑ d, (to_vertices (fun a b => raw a (σ b)) j d
          - to_vertices (fun a b => raw a (σ b)) i d) ^ 2) + 1e-9))
        = ∑ i, ∑ j,
            Real.sqrt ((∑ d, (to_vertices raw j d - to_vertices raw i d) ^ 2) + 1e-9) :=
    (Finset.sum_congr rfl fun i _ => Finset.sum_congr rfl fun j _ => h1 i j).trans
      (sum_sum_perm σ (fun a b =>
        Real.sqrt ((∑ d, (to_vertices raw b d - to_vertices raw a d) ^ 2) + 1e-9)))
  rw [perimeterLoss_eq, perimeterLoss_eq, hS]

/-! ### `NNBase` configuration and mode dispatch (archbase.py, lines 279-531)

Only the hyperparameters the claims concern (`output_dim`, `number_cat`,
`mode`) are embedded; `alpha` and the compile/callback options are opaque
pass-throughs that no claim mentions.  `None` models an unsupplied
hyperparameter, so `Option.getD` is Python's `hps.pop(name, default)`. -/

/-- Python's `str.lower` restricted to the ASCII strings used for modes
(Lean's `Char.toLower` lowercases exactly the ASCII letters). -/
def str_lower (s : String) : String :=
  String.mk (s.data.map Char.toLower)

/-- The allow-set `{'demix', 'plain'}` of `NNBase._process_hps`
(archbase.py line 408), in Python's `sorted` order. -/
def allowed_modes : List String := ["demix", "plain"]

/-- The configuration state produced by `NNBase._process_hps`:
`output_dim` is the inner model's output width (after the demix-mode
adjustment of lines 419-423), `demixer_output_dim` the external width saved
for the demixer (`none` in plain mode). -/
structure NNConfig where
  mode : String
  output_dim : ℕ
  number_cat : ℕ
  demixer_output_dim : Option ℕ
deriving DecidableEq

/-- `NNBase._process_hps` (archbase.py lines 406-423): apply defaults
(`output_dim = 2`, `number_cat = output_dim`, `mode = 'demix'`), lowercase
the mode, reject a mode outside the allow-set with the `ValueError` message
of lines 412-416, and in demix mode save the user-requested width in
`demixer_output_dim` while forcing `output_dim` to `number_cat`. -/
def process_hps (output_dim? number_cat? : Option ℕ) (mode? : Option String) :
    Except String NNConfig :=
  let output_dim := output_dim?.getD 2
  let number_cat := number_cat?.getD output_dim
  let mode := str_lower (mode?.getD "demix")
  if mode ∉ allowed_modes then
    Except.error ("Unrecognised mode '" ++ mode ++ "'. Valid options are ['demix', 'plain'].")
  else if mode = "demix" then
    Except.ok { mode := mode, output_dim := number_cat, number_cat := number_cat,
                demixer_output_dim := some output_dim }
  else
    Except.ok { mode := mode, output_dim := output_dim, number_cat := number_cat,
                demixer_output_dim := none }

/-- The state of a constructed `NNBase`: its configuration, and whether
`_construct_demixer` ran (it does exactly when the mode is `'demix'`,
archbase.py lines 290-294). -/
structure NNState where
  config : NNConfig
  has_demixer : Bool
deriving DecidableEq

/-- `NNBase.__init__` (archbase.py lines 281-294): process the
hyperparameters, then construct the demixer exactly in demix mode.  The
abstract `_construct_model` of the inner model is out of scope here. -/
def NNBase_init (output_dim? number_cat? : Option ℕ) (mode? : Option String) :
    Except String NNState :=
  (process_hps output_dim? number_cat? mode?).map fun cfg =>
    { config := cfg, has_demixer := cfg.mode = "demix" }

/-- The object a dispatching method forwards to. -/
inductive Target where
  | model
  | demixer
deriving DecidableEq

/-- `NNBase.fit` (archbase.py lines 472-477): fit the demixer in demix mode,
the inner model otherwise. -/
def fitTarget (s : NNState) : Target :=
  if s.config.mode = "demix" then Target.demixer else Target.model

/-- `NNBase.predict` (archbase.py lines 508-515): predict with the demixer
in demix mode, the inner model otherwise. -/
def predictTarget (s : NNState) : Target :=
  if s.config.mode = "demix" then Target.demixer else Target.model

/-- Claim C5: constructed in demix mode with requested output dimension `D`
and optional category count `C?` (defaulting to `D`), the inner model's
output width becomes the category count, the demixer's external width is
`D`, the demixer is constructed, and both `fit` and `predict` dispatch to
it; in plain mode no demixer is built, the width stays `D`, and both
dispatch to the inner model. -/
theorem nnbase_mode_wiring (D : ℕ) (C? : Option ℕ) :
    (∃ s : NNState, NNBase_init (some D) C? (some "demix") = Except.ok s
      ∧ s.config.output_dim = C?.getD D
      ∧ s.config.number_cat = C?.getD D
      ∧ s.config.demixer_output_dim = some D
      ∧ s.has_demixer = true
      ∧ fitTarget s = Target.demixer
      ∧ predictTarget s = Target.demixer)
    ∧ (∃ s : NNState, NNBase_init (some D) C? (some "plain") = Except.ok s
      ∧ s.config.output_dim = D
      ∧ s.config.demixer_output_dim = none
      ∧ s.has_demixer = false
      ∧ fitTarget s = Target.model
      ∧ predictTarget s = Target.model) := by
  constructor
  · exact ⟨_, rfl, rfl, rfl, rfl, rfl, rfl, rfl⟩
  · exact ⟨_, rfl, rfl, rfl, rfl, rfl, rfl⟩

/-- Claim C10: when no mode hyperparameter is supplied, the mode defaults to
`'demix'`: the demixer is constructed and `fit` and `predict` dispatch to
it. -/
theorem nnbase_default_mode_is_demix (output_dim? number_cat? : Option ℕ) :
    ∃ s : NNState, NNBase_init output_dim? number_cat? none = Except.ok s
      ∧ s.config.mode = "demix"
      ∧ s.has_demixer = true
      ∧ fitTarget s = Target.demixer
      ∧ predictTarget s = Target.demixer :=
  ⟨_, rfl, rfl, rfl, rfl, rfl⟩

/-- Claim C6: a mode whose lowercase form is neither `'demix'` nor `'plain'`
is rejected at configuration time with the `ValueError` message citing the
(lowercased) value and the valid set, while any string whose lowercase form
is `'demix'` or `'plain'` is accepted. -/
theorem nnbase_mode_validation (m : String) (output_dim? number_cat? : Option ℕ) :
    (str_lower m ∉ allowed_modes →
      NNBase_init output_dim? number_cat? (some m)
        = Except.error ("Unrecognised mode '" ++ str_lower m
            ++ "'. Valid options are ['demix', 'plain']."))
    ∧ (str_lower m ∈ allowed_modes →
      ∃ s : NNState, NNBase_init output_dim? number_cat? (some m) = Except.ok s) := by
  constructor
  · intro hbad
    unfold NNBase_init process_hps
    rw [if_pos]
    · rfl
    · exact hbad
  · intro hgood
    unfold NNBase_init process_hps
    rw [if_neg (by simpa using hgood)]
    by_cases hdemix : str_lower (Option.getD (some m) "demix") = "demix"
    · rw [if_pos hdemix]
      exact ⟨_, rfl⟩
    · rw [if_neg hdemix]
      exact ⟨_, rfl⟩

/-! ### Python attribute lookup for the `model` / `demixer` accessors (C9)

The `model` and `demixer` properties (archbase.py lines 517-531) raise
`AttributeError` when `_model` / `_demixer` is absent, but `ArchBase` also
defines `__getattr__` (lines 201-209).  Per the Python data model (§3.3.2,
`object.__getattr__`), `__getattr__` is called whenever default attribute
access fails with `AttributeError` — including when a property getter
raises it — so the interaction of the two is what a caller observes.  The
lookup is embedded with fuel standing for the interpreter's recursion
limit: exhausting it is Python's `RecursionError`. -/

/-- A value produced by attribute lookup on an `NNBase` object. -/
inductive PyVal where
  | modelV
  | demixerV
  | innerV (name : String)
deriving DecidableEq

/-- The outcome of an attribute access: a value, an `AttributeError` with
its message, or a `RecursionError`. -/
inductive PyRes where
  | ok (v : PyVal)
  | attrErr (msg : String)
  | recursionErr
deriving DecidableEq

/-- An `NNBase` object as the attribute machinery sees it: its class name,
whether `_model` / `_demixer` are in the instance dictionary, and which
attribute names resolve on the underlying Keras model. -/
structure PyNNBase where
  className : String
  has_model : Bool
  has_demixer : Bool
  innerAttrs : List String
deriving DecidableEq

mutual

/-- Full attribute lookup `getattr(nn, name)`: `object.__getattribute__`
first and, when that raises `AttributeError`, the `__getattr__` fallback. -/
def pyGetattr (nn : PyNNBase) (name : String) : ℕ → PyRes
  | 0 => PyRes.recursionErr
  | fuel + 1 =>
    match pyGetattribute nn name fuel with
    | PyRes.attrErr _ => pyDunderGetattr nn name fuel
    | r => r

/-- `object.__getattribute__` on an `NNBase`: the instance dictionary
(`_model`, `_demixer`) and the class properties `model` and `demixer`
(archbase.py lines 517-531), whose bodies run `hasattr(self, '_model')` /
`hasattr(self, '_demixer')` — themselves full attribute lookups. -/
def pyGetattribute (nn : PyNNBase) (name : String) : ℕ → PyRes
  | 0 => PyRes.recursionErr
  | fuel + 1 =>
    if name = "model" then
      match pyGetattr nn "_model" fuel with
      | PyRes.ok v => PyRes.ok v
      | PyRes.attrErr _ =>
          PyRes.attrErr ("'" ++ nn.className ++ "' object has no underlying model")
      | PyRes.recursionErr => PyRes.recursionErr
    else if name = "demixer" then
      match pyGetattr nn "_demixer" fuel with
      | PyRes.ok v => PyRes.ok v
      | PyRes.attrErr _ =>
          PyRes.attrErr ("'" ++ nn.className ++ "' object has no underlying demixer")
      | PyRes.recursionErr => PyRes.recursionErr
    else if name = "_model" then
      if nn.has_model then PyRes.ok PyVal.modelV
      else PyRes.attrErr ("'" ++ nn.className ++ "' object has no attribute '_model'")
    else if name = "_demixer" then
      if nn.has_demixer then PyRes.ok PyVal.demixerV
      else PyRes.attrErr ("'" ++ nn.className ++ "' object has no attribute '_demixer'")
    else
      PyRes.attrErr ("'" ++ nn.className ++ "' object has no attribute '" ++ name ++ "'")

/-- `ArchBase.__getattr__` (archbase.py lines 201-209): evaluate
`self.model` (a full lookup) and delegate `name` to it; an exception raised
while evaluating `self.model` propagates. -/
def pyDunderGetattr (nn : PyNNBase) (name : String) : ℕ → PyRes
  | 0 => PyRes.recursionErr
  | fuel + 1 =>
    match pyGetattr nn "model" fuel with
    | PyRes.ok _ =>
        if name ∈ nn.innerAttrs then PyRes.ok (PyVal.innerV name)
        else PyRes.attrErr ("'" ++ nn.className ++ "' object has no attribute '"
          ++ name ++ "', check of underlying model failed")
    | r => r

end

/-- A fully constructed `NNBase` in plain mode: `_model` present, no
`_demixer`; the underlying Keras model exposes its usual attributes, none
of which is named `demixer` or `_demixer`. -/
def plainNN : PyNNBase :=
  { className := "NNBase", has_model := true, has_demixer := false,
    innerAttrs := ["layers", "weights", "compile", "fit", "predict", "summary"] }

/-- An `NNBase` whose inner model has not been constructed. -/
def bareNN : PyNNBase :=
  { className := "NNBase", has_model := false, has_demixer := false, innerAttrs := [] }

lemma pyGetattr_succ (nn : PyNNBase) (name : String) (fuel : ℕ) :
    pyGetattr nn name (fuel + 1)
      = match pyGetattribute nn name fuel with
        | PyRes.attrErr _ => pyDunderGetattr nn name fuel
        | r => r := rfl

lemma pyGetattribute_model (nn : PyNNBase) (fuel : ℕ) :
    pyGetattribute nn "model" (fuel + 1)
      = match pyGetattr nn "_model" fuel with
        | PyRes.ok v => PyRes.ok v
        | PyRes.attrErr _ =>
            PyRes.attrErr ("'" ++ nn.className ++ "' object has no underlying model")
        | PyRes.recursionErr => PyRes.recursionErr := rfl

lemma pyDunderGetattr_succ (nn : PyNNBase) (name : String) (fuel : ℕ) :
    pyDunderGetattr nn name (fuel + 1)
      = match pyGetattr nn "model" fuel with
        | PyRes.ok _ =>
            if name ∈ nn.innerAttrs then PyRes.ok (PyVal.innerV name)
            else PyRes.attrErr ("'" ++ nn.className ++ "' object has no attribute '"
              ++ name ++ "', check of underlying model failed")
        | r => r := rfl

/-- Without `_model`, the lookup of `model` never terminates: the property
raises `AttributeError`, `__getattr__` evaluates `self.model` again, and so
on, whatever the recursion limit. -/
lemma bare_model_diverges : ∀ fuel,
    pyGetattr bareNN "model" fuel = PyRes.recursionErr
    ∧ pyGetattr bareNN "_model" fuel = PyRes.recursionErr := by
  intro fuel
  induction fuel using Nat.strong_induction_on with
  | _ fuel ih =>
    match fuel with
    | 0 => exact ⟨rfl, rfl⟩
    | 1 => exact ⟨by decide, by decide⟩
    | (f + 2) =>
      constructor
      · rw [pyGetattr_succ, pyGetattribute_model, (ih f (by omega)).2]
      · show pyDunderGetattr bareNN "_model" (f + 1) = PyRes.recursionErr
        rw [pyDunderGetattr_succ, (ih f (by omega)).1]

/-- Claim C9, settled against the code's actual behavior: on a plain-mode
`NNBase`, accessing `demixer` raises an `AttributeError` whose message is
the `__getattr__` delegation message — not the property's
`'no underlying demixer'` message, which Python's `__getattr__` fallback
swallows — and accessing `model` before the inner model exists loops
through `__getattr__` and the `model` property until the recursion limit
(`RecursionError`), for every limit. -/
theorem nnbase_accessor_error_behavior :
    pyGetattr plainNN "demixer" 16
      = PyRes.attrErr
          "'NNBase' object has no attribute 'demixer', check of underlying model failed"
    ∧ (∀ fuel, pyGetattr bareNN "model" fuel = PyRes.recursionErr) :=
  ⟨by decide, fun fuel => (bare_model_diverges fuel).1⟩

end EnergyFlowDemix
